import Mathlib

/-!
Shallow embedding of the logos registry core (provider pattern), translated
from the JavaScript sources:

  * `src/registry/providers/base-provider.js`   (`BaseProvider`)
  * `src/registry/providers/github-provider.js` (`GitHubProvider`)
  * `src/registry/providers/svgl-provider.js`   (`SvglProvider`)
  * `src/registry/providers/local-provider.js`  (`LocalProvider`)
  * `src/registry/registry.js`                  (`LogoRegistry`)

Network and filesystem effects are modelled by an explicit `World` record:
enumeration endpoints yield parsed payloads (`none` collapses the two JS
failure modes, a thrown fetch error and a non-2xx response, which the code
treats identically), and per-URL text fetches are an association list in
which a missing URL again means either failure mode.  Operations return the
list of URLs fetched so that call-count properties can be stated.  JS
exceptions that escape a function are modelled with `Except Unit`.
-/

namespace Logos

/-! ### JavaScript string primitives -/

/-- Chars matched by the JS regex class backslash-s that occur in ASCII input
(space, tab, LF, CR, FF, VT). -/
def isJsWs (c : Char) : Bool :=
  c = ' ' || c = '\t' || c = '\n' || c = '\r' || c = '\x0c' || c = '\x0b'

/-- `sub` occurs at the start of `hay`. -/
def listStartsWith : List Char → List Char → Bool
  | _, [] => true
  | [], _ :: _ => false
  | h :: t, n :: ns => h = n && listStartsWith t ns

/-- `sub` occurs somewhere inside `hay` (JS `String.prototype.includes`). -/
def listHasInfix (hay sub : List Char) : Bool :=
  match hay with
  | [] => sub.isEmpty
  | _ :: t => listStartsWith hay sub || listHasInfix t sub

/-- JS `hay.includes(sub)`. -/
def jsIncludes (hay sub : String) : Bool :=
  listHasInfix hay.data sub.data

/-- JS `String.prototype.toLowerCase` restricted to ASCII input. -/
def jsToLower (s : String) : String :=
  ⟨s.data.map Char.toLower⟩

/-- JS `Array.prototype.sort()` on strings: lexicographic by code unit
(insertion sort; agrees with JS on the ASCII names this registry uses). -/
def insertStr (s : String) : List String → List String
  | [] => [s]
  | t :: ts => if s ≤ t then s :: t :: ts else t :: insertStr s ts

def sortStrings : List String → List String
  | [] => []
  | s :: ss => insertStr s (sortStrings ss)

/-- Remove the first occurrence of `pat` (JS `str.replace(pat, "")` with a
string pattern replaces only the first occurrence). -/
def removeFirstOcc (pat : List Char) : List Char → List Char
  | [] => []
  | c :: cs =>
    if listStartsWith (c :: cs) pat then (c :: cs).drop pat.length
    else c :: removeFirstOcc pat cs

/-! ### Data model -/

/-- A component record.  Providers populate different subsets of the JS
object's fields; fields a provider does not set are `none`/defaults here,
matching an absent key in the JS object.  The `lastModified` timestamp is
not modelled (wall-clock time, never consumed by the core). -/
structure Component where
  name : String
  filePath : String
  content : Option String
  size : Nat
  source : String
  title : Option String := none
  category : Option (List String) := none
  brandUrl : Option String := none
  svglId : Option Nat := none
  hasThemes : Bool := false
  darkRoute : Option String := none
deriving DecidableEq

/-- In-memory component set of a provider: a JS `Map` from name to record,
in insertion order. -/
abbrev ComponentMap := List (String × Component)

/-- JS `map.has(k)`. -/
def mapHas (m : ComponentMap) (k : String) : Bool :=
  m.any (fun p => p.1 = k)

/-- JS `map.get(k) || null`. -/
def mapGet (m : ComponentMap) (k : String) : Option Component :=
  (m.find? (fun p => p.1 = k)).map (fun p => p.2)

/-- JS `map.set(k, v)`: overwrite the entry in place if the key is present
(a JS `Map` holds at most one entry per key), else append. -/
def mapSet : ComponentMap → String → Component → ComponentMap
  | [], k, v => [(k, v)]
  | p :: ps, k, v => if p.1 = k then (k, v) :: ps else p :: mapSet ps k v

/-- Provider state (`BaseProvider` constructor): a name, the component
map, and the one-shot `isLoaded` flag. -/
structure Provider where
  name : String
  components : ComponentMap
  isLoaded : Bool
deriving DecidableEq

def freshProvider (n : String) : Provider :=
  { name := n, components := [], isLoaded := false }

/-- The `route` field of an SVGL API record: either a plain URL string or a
themed object with optional `light`/`dark` URLs (`none` models an absent or
JS-falsy field where the code tests truthiness). -/
inductive JsRoute where
  | str (s : String)
  | obj (light : Option String) (dark : Option String)
deriving DecidableEq

/-- The `category` field of an SVGL API record: a single string or an
array (the code tests `Array.isArray`). -/
inductive JsCat where
  | one (s : String)
  | many (l : List String)
deriving DecidableEq

/-- One parsed record of the SVGL bulk endpoint. -/
structure SvglEntry where
  title : String
  route : JsRoute
  category : JsCat
  url : Option String := none
  id : Option Nat := none
deriving DecidableEq

/-- One entry of the bundled `component-index.json` (see
`scripts/generate-index.js`); `registry.js` consumes only the `name`
fields of `components`. -/
structure IndexEntry where
  name : String
  size : Nat
  downloadUrl : String := ""
  sha : String := ""
deriving DecidableEq

structure ComponentIndex where
  components : List IndexEntry
deriving DecidableEq

/-- The outside world: parsed payloads of the two enumeration endpoints,
successful per-URL text fetches, and the local components directory.
`none` / a missing URL means the corresponding I/O fails (thrown error or
non-ok response — the code treats both alike at every call site). -/
structure World where
  svglList : Option (List SvglEntry)
  githubIndex : Option (List String)
  urlText : List (String × String)
  localFiles : Option (List (String × String))
deriving DecidableEq

/-- Result of `await fetch(url)` + `await response.text()`. -/
def World.fetchText (w : World) (url : String) : Option String :=
  ((w.urlText.find? (fun p => p.1 = url))).map (fun p => p.2)

/-! ### BaseProvider methods (`base-provider.js`) -/

namespace BaseProvider

/-- `hasComponent(name)`. -/
def hasComponent (p : Provider) (name : String) : Bool :=
  mapHas p.components name

/-- `getComponent(name)` — `this.components.get(name) || null`. -/
def getComponent (p : Provider) (name : String) : Option Component :=
  mapGet p.components name

/-- `getComponentNames()` — `Array.from(this.components.keys()).sort()`. -/
def getComponentNames (p : Provider) : List String :=
  sortStrings (p.components.map (fun pr => pr.1))

/-- `getComponentsCount()` — `this.components.size`. -/
def getComponentsCount (p : Provider) : Nat :=
  p.components.length

/-- `searchComponents(query)`: case-insensitive substring filter over the
sorted names (and nothing else — titles and categories are not consulted). -/
def searchComponents (p : Provider) (query : String) : List String :=
  (getComponentNames p).filter
    (fun name => jsIncludes (jsToLower name) (jsToLower query))

/-- `getComponentsByCategory(category)`: keeps names whose record's
`category` array contains the query — `Array.prototype.includes`, i.e.
case-SENSITIVE exact equality; records without a `category` never match. -/
def getComponentsByCategory (p : Provider) (category : String) : List String :=
  (getComponentNames p).filter (fun name =>
    match getComponent p name with
    | some c =>
      match c.category with
      | some l => l.contains category
      | none => false
    | none => false)

/-- Increment the count for one category tag, preserving first-seen order
(models pushing onto the per-category list in the JS `Map`). -/
def bumpCat : List (String × Nat) → String → List (String × Nat)
  | [], c => [(c, 1)]
  | p :: ps, c => if p.1 = c then (c, p.2 + 1) :: ps else p :: bumpCat ps c

/-- Stable descending insertion by count (JS `sort((a, b) => b.count - a.count)`
with the engine's stable sort). -/
def insertByCountDesc (x : String × Nat) : List (String × Nat) → List (String × Nat)
  | [] => [x]
  | y :: ys => if x.2 ≥ y.2 then x :: y :: ys else y :: insertByCountDesc x ys

def sortByCountDesc (l : List (String × Nat)) : List (String × Nat) :=
  l.foldr insertByCountDesc []

/-- `getCategories()`: per-tag counts over all records, sorted by count
descending. -/
def getCategories (p : Provider) : List (String × Nat) :=
  sortByCountDesc
    (p.components.foldl
      (fun acc pr =>
        match pr.2.category with
        | some l => l.foldl bumpCat acc
        | none => acc)
      [])

end BaseProvider

/-! ### SvglProvider (`svgl-provider.js`) -/

namespace SvglProvider

def baseUrl : String := "https://api.svgl.app"

/-- `normalizeComponentName(title)` —
`title.toLowerCase().replace(re-ws-runs, "-").replace(re-not-alnum-hyphen, "")`.
`replaceWsRunsAux` models the first regex as the left-to-right scan the
regex engine performs: each maximal run of whitespace becomes a single
hyphen; the flag records whether the scanner is inside a run whose hyphen
was already emitted. -/
def replaceWsRunsAux : Bool → List Char → List Char
  | _, [] => []
  | inRun, c :: cs =>
    if isJsWs c then
      if inRun then replaceWsRunsAux true cs
      else '-' :: replaceWsRunsAux true cs
    else c :: replaceWsRunsAux false cs

def replaceWsRuns (l : List Char) : List Char :=
  replaceWsRunsAux false l

def isAllowedChar (c : Char) : Bool :=
  ('a' ≤ c && c ≤ 'z') || ('0' ≤ c && c ≤ '9') || c = '-'

def normalizeComponentName (title : String) : String :=
  ⟨(replaceWsRuns (title.data.map Char.toLower)).filter isAllowedChar⟩

/-- `extractSvgUrl(route)`: a string route is returned as is; an object
route yields its `light` field when that is truthy; otherwise `null`. -/
def extractSvgUrl : JsRoute → Option String
  | JsRoute.str s => some s
  | JsRoute.obj light _ =>
    match light with
    | some l => if l = "" then none else some l
    | none => none

/-- The `darkRoute` stored for an entry: `svg.route?.dark || null`. -/
def entryDarkRoute : JsRoute → Option String
  | JsRoute.str _ => none
  | JsRoute.obj _ dark =>
    match dark with
    | some d => if d = "" then none else some d
    | none => none

/-- The record built for one SVGL entry during bulk enumeration
(metadata-only: `content: null`, `size: 0`). -/
def entryComponent (e : SvglEntry) (svgUrl : String) : Component :=
  { name := normalizeComponentName e.title
    title := some e.title
    category := some (match e.category with
      | JsCat.many l => l
      | JsCat.one s => [s])
    filePath := svgUrl
    content := none
    size := 0
    source := "svgl"
    brandUrl := e.url
    svglId := e.id
    hasThemes := (match e.route with
      | JsRoute.obj _ _ => true
      | JsRoute.str _ => false)
    darkRoute := entryDarkRoute e.route }

/-- One iteration of the enumeration loop: entries without a usable route
are skipped (`continue`), the rest are stored under their normalized name. -/
def storeEntry (m : ComponentMap) (e : SvglEntry) : ComponentMap :=
  match extractSvgUrl e.route with
  | none => m
  | some url => mapSet m (normalizeComponentName e.title) (entryComponent e url)

/-- `loadComponents()`: no-op when `isLoaded`; otherwise fetch the bulk
endpoint, store one metadata-only record per entry with a usable route,
set `isLoaded`.  A fetch failure or non-ok response is caught, logged and
RETHROWN (`throw error`), leaving the provider state untouched. -/
def loadComponents (w : World) (p : Provider) :
    Except Unit Provider × List String :=
  if p.isLoaded then (Except.ok p, [])
  else
    match w.svglList with
    | none => (Except.error (), [baseUrl])
    | some entries =>
      (Except.ok
        { p with components := entries.foldl storeEntry p.components, isLoaded := true },
        [baseUrl])

/-- `loadSingleComponent(name, metadata)`: with no metadata (or a falsy
`filePath`) return `null` at once, fetching nothing; otherwise fetch the
stored locator and, on success, store and return the promoted record
(`...metadata` spread FIRST, so the fresh `content`/`size` win).  Any
failure is caught and converted to `null`. -/
def loadSingleComponent (w : World) (p : Provider) (name : String)
    (metadata : Option Component) :
    (Option Component × Provider) × List String :=
  match metadata with
  | none => ((none, p), [])
  | some m =>
    if m.filePath = "" then ((none, p), [])
    else
      match w.fetchText m.filePath with
      | some content =>
        let comp := { m with content := some content, size := content.utf8ByteSize }
        ((some comp, { p with components := mapSet p.components name comp }), [m.filePath])
      | none => ((none, p), [m.filePath])

end SvglProvider

/-! ### GitHubProvider (`github-provider.js`) -/

namespace GitHubProvider

def baseUrl : String :=
  "https://raw.githubusercontent.com/bhaveshsinghal95182/logos/main/registry/components"

def indexUrl : String := baseUrl ++ "/index.json"

def componentUrl (name : String) : String := baseUrl ++ "/" ++ name ++ ".svg"

/-- The metadata-only record built per name during bulk enumeration. -/
def metadataComponent (name : String) : Component :=
  { name := name
    filePath := componentUrl name
    content := none
    size := 0
    source := "github" }

/-- One iteration of the enumeration loop. -/
def storeName (m : ComponentMap) (n : String) : ComponentMap :=
  mapSet m n (metadataComponent n)

/-- `loadComponents()`: fetch `index.json`, store one metadata-only record
per listed name, set `isLoaded`.  Failures are caught, logged and
RETHROWN, leaving the state untouched. -/
def loadComponents (w : World) (p : Provider) :
    Except Unit Provider × List String :=
  if p.isLoaded then (Except.ok p, [])
  else
    match w.githubIndex with
    | none => (Except.error (), [indexUrl])
    | some names =>
      (Except.ok
        { p with components := names.foldl storeName p.components, isLoaded := true },
        [indexUrl])

/-- `loadSingleComponent(name, metadata)`.  The fetch URL is
`metadata?.filePath || baseUrl/name.svg`.  On success the JS builds an
object literal whose LAST element is `...(metadata || ...)`: every key of
`metadata` (for records of this codebase: `name`, `filePath`, `content`,
`size`, `lastModified`, `source`) overwrites the freshly fetched values,
so with metadata present the stored and returned record is `metadata`
unchanged — in particular `content` stays `null` and `size` stays `0`.
Failures are caught and converted to `null`. -/
def loadSingleComponent (w : World) (p : Provider) (name : String)
    (metadata : Option Component) :
    (Option Component × Provider) × List String :=
  let url := match metadata with
    | some m => if m.filePath = "" then componentUrl name else m.filePath
    | none => componentUrl name
  match w.fetchText url with
  | some content =>
    let comp := match metadata with
      | some m => m
      | none =>
        { name := name
          filePath := url
          content := some content
          size := content.utf8ByteSize
          source := "github" }
    ((some comp, { p with components := mapSet p.components name comp }), [url])
  | none => ((none, p), [url])

end GitHubProvider

/-! ### LocalProvider (`local-provider.js`) -/

namespace LocalProvider

/-- Strip the first occurrence of `.svg` (JS `file.replace(".svg", "")`). -/
def stripSvgExt (s : String) : String :=
  ⟨removeFirstOcc ".svg".data s.data⟩

def fileComponent (name filePath content : String) : Component :=
  { name := name
    filePath := filePath
    content := some content
    size := content.utf8ByteSize
    source := "local" }

/-- `loadComponents()`: read the directory, store every `.svg` file with
eagerly read content.  A filesystem failure is caught, logged and
RETHROWN.  (Filesystem reads are not network fetches, so the fetch list
stays empty.) -/
def loadComponents (w : World) (p : Provider) :
    Except Unit Provider × List String :=
  if p.isLoaded then (Except.ok p, [])
  else
    match w.localFiles with
    | none => (Except.error (), [])
    | some files =>
      let comps := files.foldl
        (fun m f =>
          if f.1.endsWith ".svg" then
            mapSet m (stripSvgExt f.1) (fileComponent (stripSvgExt f.1) f.1 f.2)
          else m)
        p.components
      (Except.ok { p with components := comps, isLoaded := true }, [])

/-- `loadSingleComponent(name)`: read `name + ".svg"`; failure is caught
and converted to `null`. -/
def loadSingleComponent (w : World) (p : Provider) (name : String)
    (_metadata : Option Component) :
    (Option Component × Provider) × List String :=
  match w.localFiles with
  | none => ((none, p), [])
  | some files =>
    match (files.find? (fun f => f.1 = name ++ ".svg")).map (fun f => f.2) with
    | none => ((none, p), [])
    | some content =>
      let comp := fileComponent name (name ++ ".svg") content
      ((some comp, { p with components := mapSet p.components name comp }), [])

end LocalProvider

/-! ### Provider dispatch -/

inductive ProviderKey where
  | github
  | svgl
  | localFs
deriving DecidableEq

def Provider.loadComponentsK (k : ProviderKey) (w : World) (p : Provider) :
    Except Unit Provider × List String :=
  match k with
  | ProviderKey.github => GitHubProvider.loadComponents w p
  | ProviderKey.svgl => SvglProvider.loadComponents w p
  | ProviderKey.localFs => LocalProvider.loadComponents w p

def Provider.loadSingleK (k : ProviderKey) (w : World) (p : Provider)
    (name : String) (metadata : Option Component) :
    (Option Component × Provider) × List String :=
  match k with
  | ProviderKey.github => GitHubProvider.loadSingleComponent w p name metadata
  | ProviderKey.svgl => SvglProvider.loadSingleComponent w p name metadata
  | ProviderKey.localFs => LocalProvider.loadSingleComponent w p name metadata

/-! ### LogoRegistry (`registry.js`) -/

/-- Registry state: the source-selection flags, the optional bundled
index, and the three provider instances. -/
structure Registry where
  registrySource : String
  useSvgl : Bool
  useGithub : Bool
  componentIndex : Option ComponentIndex
  github : Provider
  svgl : Provider
  localFs : Provider
deriving DecidableEq

/-- The constructor.  `loadComponentIndex` reads the bundled
`component-index.json` from disk; the parsed result (or `none`, when the
file is absent or malformed) enters the model as a parameter. -/
def LogoRegistry.new (idx : Option ComponentIndex) : Registry :=
  { registrySource := "github"
    useSvgl := false
    useGithub := true
    componentIndex := idx
    github := freshProvider "github"
    svgl := freshProvider "svgl"
    localFs := freshProvider "local" }

/-- `configureRegistrySource` as every CLI command performs it when the
svgl flag is set (`add-command.js`, `categories-command.js`, and the
interactive paths): the three fields are always switched together. -/
def Registry.configureSvgl (r : Registry) : Registry :=
  { r with registrySource := "svgl", useSvgl := true, useGithub := false }

def Registry.providerOf (r : Registry) : ProviderKey → Provider
  | ProviderKey.github => r.github
  | ProviderKey.svgl => r.svgl
  | ProviderKey.localFs => r.localFs

def Registry.setProvider (r : Registry) : ProviderKey → Provider → Registry
  | ProviderKey.github, p => { r with github := p }
  | ProviderKey.svgl, p => { r with svgl := p }
  | ProviderKey.localFs, p => { r with localFs := p }

namespace LogoRegistry

/-- `getActiveProvider()`. -/
def getActiveProvider (r : Registry) : ProviderKey :=
  if r.registrySource = "svgl" || r.useSvgl then ProviderKey.svgl
  else if r.useGithub then ProviderKey.github
  else ProviderKey.localFs

/-- `getComponent(name)`: if the active provider already holds the name,
return the record, first promoting it through `loadSingleComponent` when
its content is still `null`; otherwise attempt a direct single-item load. -/
def getComponent (w : World) (r : Registry) (name : String) :
    (Option Component × Registry) × List String :=
  let k := getActiveProvider r
  let p := r.providerOf k
  if BaseProvider.hasComponent p name then
    match BaseProvider.getComponent p name with
    | some c =>
      if c.content = none then
        let res := Provider.loadSingleK k w p name (some c)
        ((res.1.1, r.setProvider k res.1.2), res.2)
      else ((some c, r), [])
    | none => ((none, r), [])
  else
    let res := Provider.loadSingleK k w p name none
    ((res.1.1, r.setProvider k res.1.2), res.2)

/-- `hasComponent(name)`: force `loadComponents` when the active provider
has never loaded (an enumeration error propagates), then report in-memory
membership.  The bundled index is not consulted. -/
def hasComponent (w : World) (r : Registry) (name : String) :
    Except Unit (Bool × Registry) × List String :=
  let k := getActiveProvider r
  let p := r.providerOf k
  if p.isLoaded then ((Except.ok (BaseProvider.hasComponent p name, r)), [])
  else
    match Provider.loadComponentsK k w p with
    | (Except.error e, fs) => (Except.error e, fs)
    | (Except.ok p', fs) =>
      ((Except.ok (BaseProvider.hasComponent p' name, r.setProvider k p')), fs)

/-- `getAvailableComponents()`. -/
def getAvailableComponents (w : World) (r : Registry) :
    Except Unit (List String × Registry) × List String :=
  let k := getActiveProvider r
  let p := r.providerOf k
  if r.registrySource = "svgl" && !p.isLoaded then
    match Provider.loadComponentsK k w p with
    | (Except.error e, fs) => (Except.error e, fs)
    | (Except.ok p', fs) =>
      ((Except.ok (BaseProvider.getComponentNames p', r.setProvider k p')), fs)
  else
    match r.componentIndex with
    | some idx =>
      if r.registrySource ≠ "svgl" then
        ((Except.ok (sortStrings (idx.components.map IndexEntry.name), r)), [])
      else
        match Provider.loadComponentsK k w p with
        | (Except.error e, fs) => (Except.error e, fs)
        | (Except.ok p', fs) =>
          ((Except.ok (BaseProvider.getComponentNames p', r.setProvider k p')), fs)
    | none =>
      match Provider.loadComponentsK k w p with
      | (Except.error e, fs) => (Except.error e, fs)
      | (Except.ok p', fs) =>
        ((Except.ok (BaseProvider.getComponentNames p', r.setProvider k p')), fs)

/-- `searchComponents(query)`: force `loadComponents`, then delegate. -/
def searchComponents (w : World) (r : Registry) (query : String) :
    Except Unit (List String × Registry) × List String :=
  let k := getActiveProvider r
  let p := r.providerOf k
  match Provider.loadComponentsK k w p with
  | (Except.error e, fs) => (Except.error e, fs)
  | (Except.ok p', fs) =>
    ((Except.ok (BaseProvider.searchComponents p' query, r.setProvider k p')), fs)

/-- `getComponentsByCategory(category)`: force `loadComponents`, then
delegate. -/
def getComponentsByCategory (w : World) (r : Registry) (category : String) :
    Except Unit (List String × Registry) × List String :=
  let k := getActiveProvider r
  let p := r.providerOf k
  match Provider.loadComponentsK k w p with
  | (Except.error e, fs) => (Except.error e, fs)
  | (Except.ok p', fs) =>
    ((Except.ok (BaseProvider.getComponentsByCategory p' category, r.setProvider k p')), fs)

/-- `getCategories()`: force `loadComponents`, then delegate. -/
def getCategories (w : World) (r : Registry) :
    Except Unit (List (String × Nat) × Registry) × List String :=
  let k := getActiveProvider r
  let p := r.providerOf k
  match Provider.loadComponentsK k w p with
  | (Except.error e, fs) => (Except.error e, fs)
  | (Except.ok p', fs) =>
    ((Except.ok (BaseProvider.getCategories p', r.setProvider k p')), fs)

/-- The record returned by `getStats()`. -/
structure Stats where
  totalComponents : Nat
  source : String
  registrySource : String
  provider : String
deriving DecidableEq

/-- `getStats()`: force `loadComponents`, then report counts and which
data source answers listing queries. -/
def getStats (w : World) (r : Registry) :
    Except Unit (Stats × Registry) × List String :=
  let k := getActiveProvider r
  let p := r.providerOf k
  match Provider.loadComponentsK k w p with
  | (Except.error e, fs) => (Except.error e, fs)
  | (Except.ok p', fs) =>
    ((Except.ok
      ({ totalComponents := BaseProvider.getComponentsCount p'
         source := if r.componentIndex.isSome && r.registrySource ≠ "svgl"
           then "bundled-index" else p'.name
         registrySource := r.registrySource
         provider := p'.name },
        r.setProvider k p')), fs)

end LogoRegistry

/-! ### Spec-side definitions

These follow the wording of the specification claims (not the code) and
exist only to be compared with the definitions translated from the source.
-/

/-- Spec wording of canonicalization, right-to-left: the flag of the
accumulator records whether the character to the right is whitespace, so
each maximal whitespace run contributes exactly one hyphen. -/
def collapseAux (l : List Char) : Bool × List Char :=
  l.foldr
    (fun c acc =>
      if isJsWs c then (true, if acc.1 then acc.2 else '-' :: acc.2)
      else (false, c :: acc.2))
    (false, [])

def canonicalCollapse (l : List Char) : List Char :=
  (collapseAux l).2

/-- Spec wording: lowercase letters, digits and hyphens survive. -/
def specAllowedChar (c : Char) : Bool :=
  c.isLower || c.isDigit || c = '-'

/-- Spec wording of the canonical name: the title lowercased, whitespace
runs replaced by hyphens, every remaining character outside lowercase
letters, digits and hyphens removed. -/
def canonicalNameSpec (t : String) : String :=
  ⟨(canonicalCollapse (t.data.map Char.toLower)).filter specAllowedChar⟩

/-- Spec wording of category matching: exact-string but case-insensitive. -/
def specByCategory (p : Provider) (category : String) : List String :=
  (BaseProvider.getComponentNames p).filter (fun name =>
    match BaseProvider.getComponent p name with
    | some c =>
      match c.category with
      | some l => l.any (fun t => jsToLower t = jsToLower category)
      | none => false
    | none => false)

/-- Spec wording of a search hit: the query occurs case-insensitively in
the name, or in the title or a category tag where the provider records
them. -/
def searchMatchesSpec (c : Component) (q : String) : Bool :=
  jsIncludes (jsToLower c.name) (jsToLower q) ||
  (match c.title with
    | some t => jsIncludes (jsToLower t) (jsToLower q)
    | none => false) ||
  (match c.category with
    | some l => l.any (fun t => jsIncludes (jsToLower t) (jsToLower q))
    | none => false)

/-- Spec wording of `search(query)`. -/
def specSearchComponents (p : Provider) (q : String) : List String :=
  (BaseProvider.getComponentNames p).filter (fun name =>
    match BaseProvider.getComponent p name with
    | some c => searchMatchesSpec c q
    | none => false)

/-- The registry configurations the CLI can actually produce: either the
default constructor state or the state `configureRegistrySource` switches
to (the three flags always move together). -/
def wellConfigured (r : Registry) : Prop :=
  (r.registrySource = "github" ∧ r.useSvgl = false ∧ r.useGithub = true) ∨
  (r.registrySource = "svgl" ∧ r.useSvgl = true ∧ r.useGithub = false)

def Registry.withIndex (r : Registry) (j : Option ComponentIndex) : Registry :=
  { r with componentIndex := j }

/-! ### Concrete fixtures used by witnesses and counterexamples -/

def nextLightUrl : String := "https://svgl.app/library/nextjs_light.svg"

def nextDarkUrl : String := "https://svgl.app/library/nextjs_dark.svg"

/-- An SVGL catalog record in the shape the API returns for Next.js:
a display title, a themed route and a category. -/
def nextEntry : SvglEntry :=
  { title := "Next.js"
    route := JsRoute.obj (some nextLightUrl) (some nextDarkUrl)
    category := JsCat.one "Framework" }

/-- A world whose SVGL catalog holds exactly the Next.js record. -/
def wNext : World :=
  { svglList := some [nextEntry]
    githubIndex := none
    urlText := [(nextLightUrl, "<svg>next</svg>")]
    localFiles := none }

/-- A world where the GitHub index lists one component and its file is
fetchable. -/
def wOne : World :=
  { svglList := none
    githubIndex := some ["react"]
    urlText := [(GitHubProvider.componentUrl "react", "<svg></svg>")]
    localFiles := none }

/-- A world where every network operation fails. -/
def wFail : World :=
  { svglList := none, githubIndex := none, urlText := [], localFiles := none }

/-- A fresh registry whose bundled index is absent. -/
def regFresh : Registry := LogoRegistry.new none

/-- The registry after the GitHub provider has enumerated `wOne`: it holds
`react` in metadata-only form. -/
def regGhLoaded : Registry :=
  match GitHubProvider.loadComponents wOne regFresh.github with
  | (Except.ok p, _) => regFresh.setProvider ProviderKey.github p
  | (Except.error _, _) => regFresh

/-- The registry after `getComponent("react")` on a fresh registry: the
direct single-item load stored the component while `isLoaded` is still
false. -/
def regGhSingle : Registry :=
  (LogoRegistry.getComponent wOne regFresh "react").1.2

/-- A fresh registry switched to the SVGL source. -/
def regSvgl : Registry := regFresh.configureSvgl

/-- A provider already holding the normalized Next.js record (as produced
by SVGL enumeration of `wNext`). -/
def pNext : Provider :=
  { name := "svgl"
    components := [("nextjs", SvglProvider.entryComponent nextEntry nextLightUrl)]
    isLoaded := true }

/-- A structurally valid bundled index listing two components. -/
def idxTwo : ComponentIndex :=
  { components := [{ name := "react", size := 120 }, { name := "apple", size := 80 }] }

/-- A fresh registry bundled with `idxTwo`. -/
def regIdx : Registry := LogoRegistry.new (some idxTwo)

/-- The same registry switched to the SVGL source. -/
def regIdxSvgl : Registry := regIdx.configureSvgl

end Logos

namespace Logos

/-! ### Supporting lemmas -/

theorem mapHas_iff_mem_keys (m : ComponentMap) (k : String) :
    mapHas m k = true ↔ k ∈ m.map Prod.fst := by
  simp [mapHas, List.any_eq_true, List.mem_map]

theorem mapGet_mapSet_self (m : ComponentMap) (k : String) (v : Component) :
    mapGet (mapSet m k v) k = some v := by
  induction m with
  | nil => simp [mapSet, mapGet, List.find?]
  | cons p ps ih =>
    by_cases h : p.1 = k
    · simp [mapSet, h, mapGet, List.find?]
    · simp only [mapSet, if_neg h]
      simpa [mapGet, List.find?, h] using ih

theorem length_mapSet_of_has (m : ComponentMap) (k : String) (v : Component)
    (h : mapHas m k = true) : (mapSet m k v).length = m.length := by
  induction m with
  | nil => simp [mapHas] at h
  | cons p ps ih =>
    by_cases hp : p.1 = k
    · simp [mapSet, hp]
    · have h' : mapHas ps k = true := by
        simpa [mapHas, List.any_cons, hp] using h
      simp [mapSet, hp, ih h']

theorem keys_mapSet (m : ComponentMap) (k : String) (v : Component) :
    (mapSet m k v).map Prod.fst =
      if mapHas m k then m.map Prod.fst else m.map Prod.fst ++ [k] := by
  induction m with
  | nil => simp [mapSet, mapHas]
  | cons p ps ih =>
    by_cases hp : p.1 = k
    · simp [mapSet, hp, mapHas, List.any_cons]
    · simp only [mapSet, if_neg hp, List.map_cons, ih, mapHas, List.any_cons]
      by_cases hps : mapHas ps k = true
      · simp [mapHas] at hps
        simp [hps, hp]
      · simp [mapHas] at hps ⊢
        simp [hps, hp]

theorem nodup_keys_mapSet (m : ComponentMap) (k : String) (v : Component)
    (h : (m.map Prod.fst).Nodup) : ((mapSet m k v).map Prod.fst).Nodup := by
  rw [keys_mapSet]
  by_cases hk : mapHas m k = true
  · simpa [hk] using h
  · have hk' : k ∉ m.map Prod.fst := fun hc => hk ((mapHas_iff_mem_keys m k).2 hc)
    simp only [hk, if_false, Bool.false_eq_true]
    simp [List.nodup_append, h, hk']

theorem mem_mapSet (pr : String × Component) (m : ComponentMap) (k : String) (v : Component)
    (h : pr ∈ mapSet m k v) : pr ∈ m ∨ pr = (k, v) := by
  induction m with
  | nil => simp [mapSet] at h; right; exact h
  | cons p ps ih =>
    by_cases hp : p.1 = k
    · simp [mapSet, hp] at h
      rcases h with h | h
      · right; exact h
      · left; exact List.mem_cons_of_mem _ h
    · simp only [mapSet, if_neg hp, List.mem_cons] at h
      rcases h with h | h
      · left; exact h ▸ List.mem_cons_self _ _
      · rcases ih h with h' | h'
        · left; exact List.mem_cons_of_mem _ h'
        · right; exact h'

theorem mem_insertStr (s t : String) (l : List String) :
    s ∈ insertStr t l ↔ s = t ∨ s ∈ l := by
  induction l with
  | nil => simp [insertStr]
  | cons x xs ih =>
    by_cases h : t ≤ x
    · simp [insertStr, h]
    · simp [insertStr, h, ih]
      tauto

theorem mem_sortStrings (s : String) (l : List String) :
    s ∈ sortStrings l ↔ s ∈ l := by
  induction l with
  | nil => simp [sortStrings]
  | cons x xs ih => simp [sortStrings, mem_insertStr, ih]

end Logos

namespace Logos

/-! ### Canonicalization: the source scan agrees with the spec wording -/

theorem collapseAux_nil : collapseAux [] = (false, []) := rfl

theorem collapseAux_cons (c : Char) (cs : List Char) :
    collapseAux (c :: cs) =
      if isJsWs c then
        (true, if (collapseAux cs).1 then (collapseAux cs).2 else '-' :: (collapseAux cs).2)
      else (false, c :: (collapseAux cs).2) := rfl

theorem replaceWsRunsAux_cons (b : Bool) (c : Char) (cs : List Char) :
    SvglProvider.replaceWsRunsAux b (c :: cs) =
      if isJsWs c then
        (if b then SvglProvider.replaceWsRunsAux true cs
         else '-' :: SvglProvider.replaceWsRunsAux true cs)
      else c :: SvglProvider.replaceWsRunsAux false cs := by
  cases b <;> rfl

theorem replaceWsRunsAux_agrees (l : List Char) :
    SvglProvider.replaceWsRunsAux false l = (collapseAux l).2 ∧
    ((collapseAux l).1 = true → '-' :: SvglProvider.replaceWsRunsAux true l = (collapseAux l).2) ∧
    ((collapseAux l).1 = false → SvglProvider.replaceWsRunsAux true l = (collapseAux l).2) := by
  induction l with
  | nil =>
    refine ⟨rfl, ?_, ?_⟩
    · intro h; simp [collapseAux_nil] at h
    · intro _; rfl
  | cons c cs ih =>
    obtain ⟨ihF, ihT, ihN⟩ := ih
    rw [collapseAux_cons, replaceWsRunsAux_cons, replaceWsRunsAux_cons]
    by_cases hw : isJsWs c
    · simp only [hw, if_true]
      by_cases hf : (collapseAux cs).1 = true
      · simp only [hf, if_true]
        exact ⟨ihT hf, fun _ => ihT hf, fun h => by simp at h⟩
      · have hf' : (collapseAux cs).1 = false := by
          cases h : (collapseAux cs).1
          · rfl
          · exact absurd h hf
        simp only [hf', if_false, Bool.false_eq_true]
        exact ⟨by rw [ihN hf'], fun _ => by rw [ihN hf'], fun h => by simp at h⟩
    · simp only [hw, if_false, Bool.false_eq_true]
      exact ⟨by rw [ihF], fun h => by simp at h, fun _ => by rw [ihF]⟩

theorem replaceWsRuns_eq_canonicalCollapse (l : List Char) :
    SvglProvider.replaceWsRuns l = canonicalCollapse l :=
  (replaceWsRunsAux_agrees l).1

theorem allowedChar_eq_spec (c : Char) :
    SvglProvider.isAllowedChar c = specAllowedChar c := by
  simp [SvglProvider.isAllowedChar, specAllowedChar, Char.isLower, Char.isDigit,
    Char.le_def, ge_iff_le]

end Logos

namespace Logos

theorem normalize_eq_canonicalNameSpec (t : String) :
    SvglProvider.normalizeComponentName t = canonicalNameSpec t := by
  unfold SvglProvider.normalizeComponentName canonicalNameSpec
  rw [replaceWsRuns_eq_canonicalCollapse,
    List.filter_congr (fun c _ => allowedChar_eq_spec c)]

/-! ### Enumeration-fold lemmas -/

theorem nodup_keys_foldl_storeEntry (es : List SvglEntry) (m : ComponentMap)
    (h : (m.map Prod.fst).Nodup) :
    ((es.foldl SvglProvider.storeEntry m).map Prod.fst).Nodup := by
  induction es generalizing m with
  | nil => simpa
  | cons e es ih =>
    rw [List.foldl_cons]
    apply ih
    unfold SvglProvider.storeEntry
    cases SvglProvider.extractSvgUrl e.route with
    | none => exact h
    | some url => exact nodup_keys_mapSet _ _ _ h

theorem nodup_keys_foldl_storeName (ns : List String) (m : ComponentMap)
    (h : (m.map Prod.fst).Nodup) :
    ((ns.foldl GitHubProvider.storeName m).map Prod.fst).Nodup := by
  induction ns generalizing m with
  | nil => simpa
  | cons n ns ih =>
    rw [List.foldl_cons]
    exact ih _ (nodup_keys_mapSet _ _ _ h)

theorem mem_foldl_storeEntry (es : List SvglEntry) (m : ComponentMap)
    (pr : String × Component) (h : pr ∈ es.foldl SvglProvider.storeEntry m) :
    pr ∈ m ∨ ∃ e ∈ es, ∃ url, SvglProvider.extractSvgUrl e.route = some url ∧
      pr = (SvglProvider.normalizeComponentName e.title, SvglProvider.entryComponent e url) := by
  induction es generalizing m with
  | nil => left; simpa using h
  | cons e es ih =>
    rw [List.foldl_cons] at h
    rcases ih _ h with h' | ⟨e', he', url, hu, hpr⟩
    · unfold SvglProvider.storeEntry at h'
      cases hr : SvglProvider.extractSvgUrl e.route with
      | none => rw [hr] at h'; left; exact h'
      | some url =>
        rw [hr] at h'
        rcases mem_mapSet _ _ _ _ h' with h'' | h''
        · left; exact h''
        · right; exact ⟨e, List.mem_cons_self _ _, url, hr, h''⟩
    · right; exact ⟨e', List.mem_cons_of_mem _ he', url, hu, hpr⟩

/-! ### Idempotence of bulk enumeration -/

theorem svgl_loadComponents_isLoaded (w : World) (p p' : Provider) (fs : List String)
    (h : SvglProvider.loadComponents w p = (Except.ok p', fs)) : p'.isLoaded = true := by
  unfold SvglProvider.loadComponents at h
  by_cases hl : p.isLoaded
  · simp [hl] at h
    rw [← h.1, hl]
  · simp [hl] at h
    cases hs : w.svglList with
    | none => rw [hs] at h; simp at h
    | some es =>
      rw [hs] at h
      simp at h
      rw [← h.1]

theorem svgl_loadComponents_of_isLoaded (w : World) (p : Provider)
    (hl : p.isLoaded = true) : SvglProvider.loadComponents w p = (Except.ok p, []) := by
  unfold SvglProvider.loadComponents
  simp [hl]

theorem github_loadComponents_isLoaded (w : World) (p p' : Provider) (fs : List String)
    (h : GitHubProvider.loadComponents w p = (Except.ok p', fs)) : p'.isLoaded = true := by
  unfold GitHubProvider.loadComponents at h
  by_cases hl : p.isLoaded
  · simp [hl] at h
    rw [← h.1, hl]
  · simp [hl] at h
    cases hs : w.githubIndex with
    | none => rw [hs] at h; simp at h
    | some ns =>
      rw [hs] at h
      simp at h
      rw [← h.1]

theorem github_loadComponents_of_isLoaded (w : World) (p : Provider)
    (hl : p.isLoaded = true) : GitHubProvider.loadComponents w p = (Except.ok p, []) := by
  unfold GitHubProvider.loadComponents
  simp [hl]

end Logos

namespace Logos

theorem svgl_loadComponents_nodup (w : World) (p p' : Provider) (fs : List String)
    (hn : (p.components.map Prod.fst).Nodup)
    (h : SvglProvider.loadComponents w p = (Except.ok p', fs)) :
    (p'.components.map Prod.fst).Nodup := by
  unfold SvglProvider.loadComponents at h
  by_cases hl : p.isLoaded
  · simp [hl] at h
    rw [← h.1]
    exact hn
  · simp [hl] at h
    cases hs : w.svglList with
    | none => rw [hs] at h; simp at h
    | some es =>
      rw [hs] at h
      simp at h
      rw [← h.1]
      exact nodup_keys_foldl_storeEntry es _ hn

theorem github_loadComponents_nodup (w : World) (p p' : Provider) (fs : List String)
    (hn : (p.components.map Prod.fst).Nodup)
    (h : GitHubProvider.loadComponents w p = (Except.ok p', fs)) :
    (p'.components.map Prod.fst).Nodup := by
  unfold GitHubProvider.loadComponents at h
  by_cases hl : p.isLoaded
  · simp [hl] at h
    rw [← h.1]
    exact hn
  · simp [hl] at h
    cases hs : w.githubIndex with
    | none => rw [hs] at h; simp at h
    | some ns =>
      rw [hs] at h
      simp at h
      rw [← h.1]
      exact nodup_keys_foldl_storeName ns _ hn

theorem svgl_loadSingle_nodup (w : World) (p : Provider) (n : String)
    (md : Option Component) (hn : (p.components.map Prod.fst).Nodup) :
    ((((SvglProvider.loadSingleComponent w p n md).1.2).components).map Prod.fst).Nodup := by
  unfold SvglProvider.loadSingleComponent
  cases md with
  | none => exact hn
  | some m =>
    by_cases hfp : m.filePath = ""
    · simp [hfp]; exact hn
    · simp only [hfp, if_false]
      cases hf : w.fetchText m.filePath with
      | some content => simp [hf]; exact nodup_keys_mapSet _ _ _ hn
      | none => simp [hf]; exact hn

theorem github_loadSingle_nodup (w : World) (p : Provider) (n : String)
    (md : Option Component) (hn : (p.components.map Prod.fst).Nodup) :
    ((((GitHubProvider.loadSingleComponent w p n md).1.2).components).map Prod.fst).Nodup := by
  unfold GitHubProvider.loadSingleComponent
  cases hf : w.fetchText (match md with
    | some m => if m.filePath = "" then GitHubProvider.componentUrl n else m.filePath
    | none => GitHubProvider.componentUrl n) with
  | some content => simp [hf]; exact nodup_keys_mapSet _ _ _ hn
  | none => simp [hf]; exact hn

/-- C6: for both remote providers, a second bulk enumeration after a
successful first call is a no-op — it returns the same provider state (so
the same component set) and fetches nothing. -/
theorem c6_loadComponents_idempotent :
    (∀ (w : World) (p p' : Provider) (fs : List String),
      SvglProvider.loadComponents w p = (Except.ok p', fs) →
      SvglProvider.loadComponents w p' = (Except.ok p', [])) ∧
    (∀ (w : World) (p p' : Provider) (fs : List String),
      GitHubProvider.loadComponents w p = (Except.ok p', fs) →
      GitHubProvider.loadComponents w p' = (Except.ok p', [])) := by
  constructor
  · intro w p p' fs h
    exact svgl_loadComponents_of_isLoaded w p' (svgl_loadComponents_isLoaded w p p' fs h)
  · intro w p p' fs h
    exact github_loadComponents_of_isLoaded w p' (github_loadComponents_isLoaded w p p' fs h)

/-- Witness for C6 at a concrete world and provider. -/
theorem c6_loadComponents_idempotent_witness :
    SvglProvider.loadComponents wNext (freshProvider "svgl") =
      (Except.ok pNext, [SvglProvider.baseUrl]) ∧
    SvglProvider.loadComponents wNext pNext = (Except.ok pNext, []) :=
  ⟨rfl, c6_loadComponents_idempotent.1 wNext (freshProvider "svgl") pNext
    [SvglProvider.baseUrl] rfl⟩

/-- C9: component names are unique keys of the in-memory set and a
re-insertion overwrites in place: setting an existing key preserves the
map size and the lookup afterwards yields the new record; every
enumeration or single-item fetch of either remote provider preserves
key-uniqueness. -/
theorem c9_unique_names_last_write_wins :
    (∀ (m : ComponentMap) (k : String) (v : Component),
      mapGet (mapSet m k v) k = some v) ∧
    (∀ (m : ComponentMap) (k : String) (v : Component),
      mapHas m k = true → (mapSet m k v).length = m.length) ∧
    (∀ (m : ComponentMap) (k : String) (v : Component),
      (m.map Prod.fst).Nodup → ((mapSet m k v).map Prod.fst).Nodup) ∧
    (∀ (w : World) (p p' : Provider) (fs : List String),
      (p.components.map Prod.fst).Nodup →
      SvglProvider.loadComponents w p = (Except.ok p', fs) →
      (p'.components.map Prod.fst).Nodup) ∧
    (∀ (w : World) (p p' : Provider) (fs : List String),
      (p.components.map Prod.fst).Nodup →
      GitHubProvider.loadComponents w p = (Except.ok p', fs) →
      (p'.components.map Prod.fst).Nodup) ∧
    (∀ (w : World) (p : Provider) (n : String) (md : Option Component),
      (p.components.map Prod.fst).Nodup →
      ((((SvglProvider.loadSingleComponent w p n md).1.2).components).map Prod.fst).Nodup) ∧
    (∀ (w : World) (p : Provider) (n : String) (md : Option Component),
      (p.components.map Prod.fst).Nodup →
      ((((GitHubProvider.loadSingleComponent w p n md).1.2).components).map Prod.fst).Nodup) :=
  ⟨mapGet_mapSet_self,
   length_mapSet_of_has,
   nodup_keys_mapSet,
   svgl_loadComponents_nodup,
   github_loadComponents_nodup,
   fun w p n md hn => svgl_loadSingle_nodup w p n md hn,
   fun w p n md hn => github_loadSingle_nodup w p n md hn⟩

/-- Witness for C9 at concrete maps and providers. -/
theorem c9_unique_names_last_write_wins_witness :
    mapGet (mapSet pNext.components "nextjs" (GitHubProvider.metadataComponent "x")) "nextjs" =
      some (GitHubProvider.metadataComponent "x") ∧
    mapHas pNext.components "nextjs" = true ∧
    (mapSet pNext.components "nextjs" (GitHubProvider.metadataComponent "x")).length =
      pNext.components.length ∧
    (pNext.components.map Prod.fst).Nodup ∧
    ((((SvglProvider.loadSingleComponent wNext pNext "nextjs"
        (some (SvglProvider.entryComponent nextEntry nextLightUrl))).1.2).components).map
          Prod.fst).Nodup :=
  ⟨c9_unique_names_last_write_wins.1 pNext.components "nextjs" _,
   by decide,
   c9_unique_names_last_write_wins.2.1 pNext.components "nextjs" _ (by decide),
   by decide,
   c9_unique_names_last_write_wins.2.2.2.2.2.1 wNext pNext "nextjs" _ (by decide)⟩

end Logos

namespace Logos

/-- Counterexample to C7: the category filter is case-SENSITIVE.  A record
tagged Framework is not returned for the query framework, although the
claim's case-insensitive matching would return it. -/
theorem c7_category_counterexample :
    BaseProvider.getComponentsByCategory pNext "framework" = [] ∧
    specByCategory pNext "framework" = ["nextjs"] := ⟨rfl, rfl⟩

/-- C7 (amended): getComponentsByCategory returns exactly the names of
loaded components one of whose category tags equals the query under
case-SENSITIVE exact-string comparison. -/
theorem c7_category_exact_match (p : Provider) (category n : String) :
    n ∈ BaseProvider.getComponentsByCategory p category ↔
      (n ∈ p.components.map (fun pr => pr.1) ∧
        ∃ c l, BaseProvider.getComponent p n = some c ∧ c.category = some l ∧
          category ∈ l) := by
  unfold BaseProvider.getComponentsByCategory BaseProvider.getComponentNames
  rw [List.mem_filter, mem_sortStrings]
  apply and_congr_right
  intro _
  cases hg : BaseProvider.getComponent p n with
  | none => simp [hg]
  | some c =>
    cases hc : c.category with
    | none => simp [hg, hc]
    | some l => simp [hg, hc]

/-- Counterexample to C8: search consults only names.  A record whose
category tag (and title) contain the query substring is not returned when
its name does not. -/
theorem c8_search_counterexample :
    BaseProvider.searchComponents pNext "framework" = [] ∧
    specSearchComponents pNext "framework" = ["nextjs"] := ⟨rfl, rfl⟩

/-- C8 (amended): search returns exactly the component names containing
the query as a case-insensitive substring; recorded titles and category
tags are not consulted. -/
theorem c8_search_names_only (p : Provider) (q n : String) :
    n ∈ BaseProvider.searchComponents p q ↔
      (n ∈ p.components.map (fun pr => pr.1) ∧
        jsIncludes (jsToLower n) (jsToLower q) = true) := by
  unfold BaseProvider.searchComponents BaseProvider.getComponentNames
  rw [List.mem_filter, mem_sortStrings]

end Logos

namespace Logos

theorem svgl_loadComponents_provenance (w : World) (es : List SvglEntry)
    (p p' : Provider) (fs : List String) (hes : w.svglList = some es)
    (h : SvglProvider.loadComponents w p = (Except.ok p', fs)) :
    ∀ pr ∈ p'.components, pr ∈ p.components ∨
      ∃ e ∈ es, ∃ url, SvglProvider.extractSvgUrl e.route = some url ∧
        pr = (SvglProvider.normalizeComponentName e.title,
          SvglProvider.entryComponent e url) := by
  unfold SvglProvider.loadComponents at h
  by_cases hl : p.isLoaded
  · simp [hl] at h
    intro pr hpr
    left
    rw [← h.1] at hpr
    exact hpr
  · simp [hl, hes] at h
    intro pr hpr
    rw [← h.1] at hpr
    exact mem_foldl_storeEntry es p.components pr hpr

/-- C5: the name every catalog (SVGL) record is stored under equals its
record's name field and arises from the display title by the documented
canonicalization (lowercase, whitespace runs to hyphens, other characters
outside lowercase letters, digits and hyphens stripped); the title Next.js
yields the key nextjs; for a themed route the stored locator is the light
route and the dark route is recorded without being fetched (the only URL
the enumeration touches is the bulk endpoint). -/
theorem c5_catalog_normalization :
    (∀ t : String, SvglProvider.normalizeComponentName t = canonicalNameSpec t) ∧
    SvglProvider.normalizeComponentName "Next.js" = "nextjs" ∧
    (∀ (e : SvglEntry) (url : String),
      (SvglProvider.entryComponent e url).name = SvglProvider.normalizeComponentName e.title ∧
      (SvglProvider.entryComponent e url).filePath = url ∧
      (SvglProvider.entryComponent e url).darkRoute = SvglProvider.entryDarkRoute e.route) ∧
    (∀ (w : World) (es : List SvglEntry) (p p' : Provider) (fs : List String),
      w.svglList = some es →
      SvglProvider.loadComponents w p = (Except.ok p', fs) →
      ∀ pr ∈ p'.components, pr ∈ p.components ∨
        ∃ e ∈ es, ∃ url, SvglProvider.extractSvgUrl e.route = some url ∧
          pr = (SvglProvider.normalizeComponentName e.title,
            SvglProvider.entryComponent e url)) ∧
    SvglProvider.loadComponents wNext (freshProvider "svgl") =
      (Except.ok pNext, [SvglProvider.baseUrl]) ∧
    mapGet pNext.components "nextjs" =
      some (SvglProvider.entryComponent nextEntry nextLightUrl) ∧
    (SvglProvider.entryComponent nextEntry nextLightUrl).filePath = nextLightUrl ∧
    (SvglProvider.entryComponent nextEntry nextLightUrl).darkRoute = some nextDarkUrl ∧
    (SvglProvider.entryComponent nextEntry nextLightUrl).content = none :=
  ⟨normalize_eq_canonicalNameSpec,
   by decide,
   fun e url => ⟨rfl, rfl, rfl⟩,
   svgl_loadComponents_provenance,
   rfl, rfl, rfl, rfl, rfl⟩

/-- Witness for C5 at the concrete Next.js world. -/
theorem c5_catalog_normalization_witness :
    wNext.svglList = some [nextEntry] ∧
    SvglProvider.loadComponents wNext (freshProvider "svgl") =
      (Except.ok pNext, [SvglProvider.baseUrl]) ∧
    (∀ pr ∈ pNext.components, pr ∈ (freshProvider "svgl").components ∨
      ∃ e ∈ [nextEntry], ∃ url, SvglProvider.extractSvgUrl e.route = some url ∧
        pr = (SvglProvider.normalizeComponentName e.title,
          SvglProvider.entryComponent e url)) :=
  ⟨rfl, rfl,
   c5_catalog_normalization.2.2.2.1 wNext [nextEntry] (freshProvider "svgl") pNext
     [SvglProvider.baseUrl] rfl rfl⟩

/-- C10: the SVGL loadSingleComponent with no known metadata returns null
at once without fetching; hence with the svgl source active and the name
never enumerated, the registry's getComponent reports not-found with no
network traffic, even when the remote catalog does list the component. -/
theorem c10_unenumerated_name_not_found (w : World) (r : Registry) (name : String)
    (es : List SvglEntry) (e : SvglEntry)
    (hk : LogoRegistry.getActiveProvider r = ProviderKey.svgl)
    (hmem : mapHas (r.svgl).components name = false)
    (hes : w.svglList = some es) (he : e ∈ es)
    (hname : SvglProvider.normalizeComponentName e.title = name) :
    (∀ (w0 : World) (p : Provider) (n : String),
      SvglProvider.loadSingleComponent w0 p n none = ((none, p), [])) ∧
    LogoRegistry.getComponent w r name = ((none, r), []) := by
  refine ⟨fun w0 p n => rfl, ?_⟩
  unfold LogoRegistry.getComponent
  rw [hk]
  simp only [Registry.providerOf, BaseProvider.hasComponent, hmem,
    Bool.false_eq_true, if_false, Provider.loadSingleK,
    SvglProvider.loadSingleComponent]
  rfl

/-- Witness for C10 at a concrete world and registry. -/
theorem c10_unenumerated_name_not_found_witness :
    LogoRegistry.getActiveProvider regSvgl = ProviderKey.svgl ∧
    mapHas (regSvgl.svgl).components "nextjs" = false ∧
    wNext.svglList = some [nextEntry] ∧
    nextEntry ∈ [nextEntry] ∧
    SvglProvider.normalizeComponentName nextEntry.title = "nextjs" ∧
    LogoRegistry.getComponent wNext regSvgl "nextjs" = ((none, regSvgl), []) :=
  ⟨by decide, by decide, rfl, List.mem_singleton.2 rfl, by decide,
   (c10_unenumerated_name_not_found wNext regSvgl "nextjs" [nextEntry] nextEntry
     (by decide) (by decide) rfl (List.mem_singleton.2 rfl) (by decide)).2⟩

end Logos

namespace Logos

theorem getActive_withIndex (r : Registry) (j : Option ComponentIndex) :
    LogoRegistry.getActiveProvider (r.withIndex j) = LogoRegistry.getActiveProvider r := rfl

theorem providerOf_withIndex (r : Registry) (j : Option ComponentIndex) (k : ProviderKey) :
    (r.withIndex j).providerOf k = r.providerOf k := by
  cases k <;> rfl

/-- Counterexample to C2: a name can sit in the in-memory set while the
provider has never bulk-enumerated (a direct single-item load put it
there).  hasComponent then fires a live enumeration fetch of the GitHub
index before answering, although the name is already in memory; the
claimed cost order (memory first, no fetch) does not hold. -/
theorem c2_hasComponent_counterexample :
    BaseProvider.hasComponent (regGhSingle.providerOf ProviderKey.github) "react" = true ∧
    (regGhSingle.providerOf ProviderKey.github).isLoaded = false ∧
    (LogoRegistry.hasComponent wOne regGhSingle "react").2 = [GitHubProvider.indexUrl] :=
  ⟨by decide, by decide, by decide⟩

/-- C2 (amended): when the active provider has already bulk-enumerated,
hasComponent on an in-memory name returns true with no fetch, and the
bundled index never affects the answer; a provider that has never loaded
first forces a bulk enumeration even for an in-memory name. -/
theorem c2_hasComponent_memory_fast_path (w : World) (r : Registry) (name : String)
    (hl : (r.providerOf (LogoRegistry.getActiveProvider r)).isLoaded = true)
    (hm : BaseProvider.hasComponent
      (r.providerOf (LogoRegistry.getActiveProvider r)) name = true) :
    LogoRegistry.hasComponent w r name = (Except.ok (true, r), []) ∧
    (∀ j : Option ComponentIndex,
      LogoRegistry.hasComponent w (r.withIndex j) name =
        (Except.ok (true, r.withIndex j), [])) := by
  constructor
  · unfold LogoRegistry.hasComponent
    simp [hl, hm]
  · intro j
    unfold LogoRegistry.hasComponent
    rw [getActive_withIndex]
    simp only [providerOf_withIndex]
    simp [hl, hm]

/-- Witness for C2 (amended) at a loaded registry. -/
theorem c2_hasComponent_memory_fast_path_witness :
    (regGhLoaded.providerOf (LogoRegistry.getActiveProvider regGhLoaded)).isLoaded = true ∧
    BaseProvider.hasComponent
      (regGhLoaded.providerOf (LogoRegistry.getActiveProvider regGhLoaded)) "react" = true ∧
    LogoRegistry.hasComponent wOne regGhLoaded "react" =
      (Except.ok (true, regGhLoaded), []) :=
  ⟨by decide, by decide,
   (c2_hasComponent_memory_fast_path wOne regGhLoaded "react" (by decide) (by decide)).1⟩

/-- Counterexample to C3: with the svgl source active and the bulk
endpoint failing, the facade's hasComponent propagates the transport
error to its caller instead of converting it. -/
theorem c3_error_propagation_counterexample :
    (LogoRegistry.hasComponent wFail regSvgl "react").1 = Except.error () := rfl

/-- C3 (amended): single-item fetch failures are caught at the provider
boundary and become a null result, but enumeration failures are rethrown
by the providers and propagate uncaught through every facade method that
forces loading (hasComponent, searchComponents, getCategories, getStats). -/
theorem c3_enumeration_errors_propagate :
    (∀ (w : World) (p : Provider) (n : String) (m : Component),
      w.fetchText m.filePath = none →
      SvglProvider.loadSingleComponent w p n (some m) =
        ((none, p), if m.filePath = "" then [] else [m.filePath])) ∧
    (∀ (w : World) (p : Provider) (n : String) (m : Component),
      m.filePath ≠ "" → w.fetchText m.filePath = none →
      GitHubProvider.loadSingleComponent w p n (some m) = ((none, p), [m.filePath])) ∧
    (∀ (w : World) (r : Registry) (n : String) (fs : List String),
      (r.providerOf (LogoRegistry.getActiveProvider r)).isLoaded = false →
      Provider.loadComponentsK (LogoRegistry.getActiveProvider r) w
        (r.providerOf (LogoRegistry.getActiveProvider r)) = (Except.error (), fs) →
      (LogoRegistry.hasComponent w r n).1 = Except.error ()) ∧
    (∀ (w : World) (r : Registry) (q : String) (fs : List String),
      Provider.loadComponentsK (LogoRegistry.getActiveProvider r) w
        (r.providerOf (LogoRegistry.getActiveProvider r)) = (Except.error (), fs) →
      (LogoRegistry.searchComponents w r q).1 = Except.error ()) ∧
    (∀ (w : World) (r : Registry) (fs : List String),
      Provider.loadComponentsK (LogoRegistry.getActiveProvider r) w
        (r.providerOf (LogoRegistry.getActiveProvider r)) = (Except.error (), fs) →
      (LogoRegistry.getCategories w r).1 = Except.error ()) ∧
    (∀ (w : World) (r : Registry) (fs : List String),
      Provider.loadComponentsK (LogoRegistry.getActiveProvider r) w
        (r.providerOf (LogoRegistry.getActiveProvider r)) = (Except.error (), fs) →
      (LogoRegistry.getStats w r).1 = Except.error ()) := by
  refine ⟨?_, ?_, ?_, ?_, ?_, ?_⟩
  · intro w p n m hf
    unfold SvglProvider.loadSingleComponent
    by_cases hfp : m.filePath = ""
    · simp [hfp]
    · simp [hfp, hf]
  · intro w p n m hne hf
    unfold GitHubProvider.loadSingleComponent
    simp [hne, hf]
  · intro w r n fs hl h
    unfold LogoRegistry.hasComponent
    simp only [hl, Bool.false_eq_true, if_false, h]
  · intro w r q fs h
    unfold LogoRegistry.searchComponents
    simp only [h]
  · intro w r fs h
    unfold LogoRegistry.getCategories
    simp only [h]
  · intro w r fs h
    unfold LogoRegistry.getStats
    simp only [h]

/-- Witness for C3 (amended) at a failing world. -/
theorem c3_enumeration_errors_propagate_witness :
    wFail.fetchText (SvglProvider.entryComponent nextEntry nextLightUrl).filePath = none ∧
    SvglProvider.loadSingleComponent wFail pNext "nextjs"
      (some (SvglProvider.entryComponent nextEntry nextLightUrl)) =
        ((none, pNext), [nextLightUrl]) ∧
    (regSvgl.providerOf (LogoRegistry.getActiveProvider regSvgl)).isLoaded = false ∧
    Provider.loadComponentsK (LogoRegistry.getActiveProvider regSvgl) wFail
      (regSvgl.providerOf (LogoRegistry.getActiveProvider regSvgl)) =
        (Except.error (), [SvglProvider.baseUrl]) ∧
    (LogoRegistry.searchComponents wFail regSvgl "a").1 = Except.error () :=
  ⟨rfl,
   c3_enumeration_errors_propagate.1 wFail pNext "nextjs"
     (SvglProvider.entryComponent nextEntry nextLightUrl) rfl,
   by decide,
   rfl,
   c3_enumeration_errors_propagate.2.2.2.1 wFail regSvgl "a" [SvglProvider.baseUrl] rfl⟩

end Logos

namespace Logos

theorem active_github_src (r : Registry) (hcfg : wellConfigured r)
    (hk : LogoRegistry.getActiveProvider r = ProviderKey.github) :
    r.registrySource = "github" := by
  rcases hcfg with ⟨h1, _, _⟩ | ⟨h1, _, _⟩
  · exact h1
  · exfalso
    unfold LogoRegistry.getActiveProvider at hk
    simp [h1] at hk

theorem active_svgl_src (r : Registry) (hcfg : wellConfigured r)
    (hk : LogoRegistry.getActiveProvider r = ProviderKey.svgl) :
    r.registrySource = "svgl" := by
  rcases hcfg with ⟨h1, h2, h3⟩ | ⟨h1, _, _⟩
  · exfalso
    unfold LogoRegistry.getActiveProvider at hk
    simp [h1, h2, h3] at hk
  · exact h1

/-- C4: with a structurally valid bundled index present, the listing
returns the index's sorted name list with no fetch exactly for the
default (github) source; with the svgl source active the index is
ignored — the listing comes from the provider's own sorted names, live
enumeration (a fetch of the bulk endpoint) happening whenever the
provider has not loaded yet. -/
theorem c4_index_fast_path_github_only (w : World) (r : Registry) (idx : ComponentIndex)
    (hcfg : wellConfigured r) (hidx : r.componentIndex = some idx) :
    (LogoRegistry.getActiveProvider r = ProviderKey.github →
      LogoRegistry.getAvailableComponents w r =
        ((Except.ok (sortStrings (idx.components.map IndexEntry.name), r)), [])) ∧
    (LogoRegistry.getActiveProvider r = ProviderKey.svgl →
      ((r.svgl).isLoaded = false →
        ∀ es : List SvglEntry, w.svglList = some es →
          ∃ p', SvglProvider.loadComponents w r.svgl =
              (Except.ok p', [SvglProvider.baseUrl]) ∧
            LogoRegistry.getAvailableComponents w r =
              ((Except.ok (BaseProvider.getComponentNames p',
                r.setProvider ProviderKey.svgl p')), [SvglProvider.baseUrl])) ∧
      ((r.svgl).isLoaded = true →
        LogoRegistry.getAvailableComponents w r =
          ((Except.ok (BaseProvider.getComponentNames r.svgl,
            r.setProvider ProviderKey.svgl r.svgl)), []))) := by
  constructor
  · intro hk
    have hsrc := active_github_src r hcfg hk
    unfold LogoRegistry.getAvailableComponents
    simp [hsrc, hidx]
  · intro hk
    have hsrc := active_svgl_src r hcfg hk
    constructor
    · intro hnl es hes
      refine ⟨{ r.svgl with
          components := es.foldl SvglProvider.storeEntry (r.svgl).components,
          isLoaded := true }, ?_, ?_⟩
      · unfold SvglProvider.loadComponents
        simp [hnl, hes]
      · unfold LogoRegistry.getAvailableComponents
        simp only [hk, hsrc, Registry.providerOf, Provider.loadComponentsK]
        unfold SvglProvider.loadComponents
        simp [hnl, hes]
    · intro hl
      unfold LogoRegistry.getAvailableComponents
      simp only [hk, hsrc, hidx, Registry.providerOf, Provider.loadComponentsK]
      rw [svgl_loadComponents_of_isLoaded w r.svgl hl]
      simp

end Logos

namespace Logos

/-- Witness for C4 at concrete registries: the default source answers from
the bundled index with no fetch; the svgl source ignores the same index
and live-enumerates. -/
theorem c4_index_fast_path_github_only_witness :
    wellConfigured regIdx ∧
    regIdx.componentIndex = some idxTwo ∧
    LogoRegistry.getActiveProvider regIdx = ProviderKey.github ∧
    LogoRegistry.getAvailableComponents wNext regIdx =
      ((Except.ok (sortStrings (idxTwo.components.map IndexEntry.name), regIdx)), []) ∧
    wellConfigured regIdxSvgl ∧
    LogoRegistry.getActiveProvider regIdxSvgl = ProviderKey.svgl ∧
    (regIdxSvgl.svgl).isLoaded = false ∧
    wNext.svglList = some [nextEntry] ∧
    (∃ p', SvglProvider.loadComponents wNext regIdxSvgl.svgl =
        (Except.ok p', [SvglProvider.baseUrl]) ∧
      LogoRegistry.getAvailableComponents wNext regIdxSvgl =
        ((Except.ok (BaseProvider.getComponentNames p',
          regIdxSvgl.setProvider ProviderKey.svgl p')), [SvglProvider.baseUrl])) :=
  ⟨Or.inl ⟨rfl, rfl, rfl⟩, rfl, by decide,
   (c4_index_fast_path_github_only wNext regIdx idxTwo (Or.inl ⟨rfl, rfl, rfl⟩) rfl).1
     (by decide),
   Or.inr ⟨rfl, rfl, rfl⟩, by decide, by decide, rfl,
   ((c4_index_fast_path_github_only wNext regIdxSvgl idxTwo
       (Or.inr ⟨rfl, rfl, rfl⟩) rfl).2 (by decide)).1 (by decide) [nextEntry] rfl⟩

/-- C1 (code bug in the GitHub provider): promoting a metadata-only
component through getComponent performs the fetch and the fetch succeeds,
yet the returned and stored record still has absent content and zero size
— the object-literal spread in loadSingleComponent puts the stale
metadata last, overwriting the fresh content — and a subsequent
getComponent for the same name fetches again instead of reusing a
populated record. -/
theorem c1_github_promotion_discards_content :
    mapGet (regGhLoaded.github).components "react" =
      some (GitHubProvider.metadataComponent "react") ∧
    (GitHubProvider.metadataComponent "react").content = none ∧
    (GitHubProvider.metadataComponent "react").size = 0 ∧
    wOne.fetchText (GitHubProvider.componentUrl "react") = some "<svg></svg>" ∧
    LogoRegistry.getComponent wOne regGhLoaded "react" =
      ((some (GitHubProvider.metadataComponent "react"), regGhLoaded),
        [GitHubProvider.componentUrl "react"]) ∧
    LogoRegistry.getComponent wOne
        ((LogoRegistry.getComponent wOne regGhLoaded "react").1.2) "react" =
      ((some (GitHubProvider.metadataComponent "react"), regGhLoaded),
        [GitHubProvider.componentUrl "react"]) :=
  ⟨rfl, rfl, rfl, rfl, rfl, rfl⟩

end Logos
